import Mathlib

/-!
Verification of the credential-encryption module, the user schema, and the
shared-link model of this repository, via a shallow embedding in Lean 4.

Conventions of the embedding:

* Byte strings are `List Nat` (each entry a byte value; XOR keeps values
  below 256, and the proofs that need byte bounds state them explicitly).
  The hex encoding applied by the source between a `Buffer` and the stored
  record field (`buf.toString hex` / `Buffer.from s hex`) is a bijection on
  byte strings and is dropped from the record model; record fields hold the
  underlying bytes.
* The platform primitive (the Node `crypto` module, which is not part of
  this repository) is modelled as an idealized authenticated stream cipher
  with the documented AES-256-GCM interface: a keystream determined by key
  and IV, ciphertext = plaintext XOR keystream, and an authentication tag
  determined by key, IV and ciphertext that is perfectly binding (the
  16-byte tag space is idealized as `Nat`).  The concrete mixing functions
  below are arbitrary stand-ins; the theorems use only their interface.
* `crypto.createCipher(alg, password)` (used by the first revision of the
  module) derives both the key and a fixed IV deterministically from the
  password; the embedding models this with `derivedKey` and `derivedIV`.
  `crypto.createCipherGCM` and `crypto.createDecipherGCM` (called by the
  second revision) do not exist in the Node crypto module, so those call
  sites throw a TypeError; the embedding models the calls as
  `CryptoErr.typeError`.
* Randomness (`crypto.randomBytes`) is passed in explicitly: each call site
  that draws random bytes takes them as a parameter.
* JavaScript exceptions are modelled with `Except`: a function that can
  throw returns `Except CryptoErr _`, and a `try/catch` block is an
  explicit `match` on that result.  A JS `null`/`undefined` value is
  `Option.none`.
-/

/-- Fold a byte string into a seed value; stand-in mixing function for the
idealized primitive. -/
def seedOf (l : List Nat) : Nat := l.foldl (fun a b => a * 257 + b + 1) 1

/-- Byte `i` of the keystream determined by `key` and `iv` (idealized
AES-256-GCM counter-mode keystream). -/
def ksByte (key iv : List Nat) (i : Nat) : Nat :=
  (seedOf key * 1000003 + seedOf iv * 131 + i * 17 + 101) % 256

/-- First `n` bytes of the keystream for `key` and `iv`. -/
def keystream (key iv : List Nat) (n : Nat) : List Nat :=
  (List.range n).map (ksByte key iv)

/-- Base-256 value of a byte string (least significant byte first). -/
def encodeBytes (l : List Nat) : Nat := l.foldr (fun b acc => b + 256 * acc) 0

/-- Authentication tag over a ciphertext, determined by key, IV, the
ciphertext length and the ciphertext content (idealized GHASH: perfectly
binding in all four). -/
def tagOf (key iv ct : List Nat) : Nat :=
  Nat.pair (Nat.pair (seedOf key) (seedOf iv)) (Nat.pair ct.length (encodeBytes ct))

/-- Key derived from a password by `crypto.createCipher` (EVP_BytesToKey):
deterministic in the password. -/
def derivedKey (password : List Nat) : List Nat :=
  (List.range 32).map (fun i => (seedOf password * 7 + i * 13 + 3) % 256)

/-- IV derived from a password by `crypto.createCipher` (EVP_BytesToKey):
deterministic in the password — the same fixed IV on every call. -/
def derivedIV (password : List Nat) : List Nat :=
  (List.range 16).map (fun i => (seedOf password * 11 + i * 19 + 5) % 256)

/-- The record `{ encrypted, iv, authTag }` returned by `encryptV2`.  The
`encrypted` and `iv` fields hold the bytes under the hex encoding; the
16-byte `authTag` is idealized as a `Nat`. -/
structure EncRecord where
  encrypted : List Nat
  iv : List Nat
  authTag : Nat
deriving DecidableEq, Repr

/-- Errors thrown by the modelled crypto primitives. -/
inductive CryptoErr where
  /-- `decipher.final` threw: the authentication tag did not verify. -/
  | authFailure
  /-- A property of the crypto module that is not a function was called
  (`createCipherGCM` / `createDecipherGCM` do not exist): TypeError. -/
  | typeError
deriving DecidableEq, Repr

/-- UTF-8 bytes of an environment string; the embedding covers the ASCII
code points that configuration keys use. -/
def utf8Bytes (s : List Char) : List Nat := s.map Char.toNat

/-- ENCRYPTION_KEY of the first revision:
`process.env.CRYPTO_KEY || crypto.randomBytes(32)` — the raw environment
string is used directly as the password when set and non-empty (the empty
string is falsy), with no decoding and no length validation. -/
def encryptionKeyV1 (cryptoKey : Option (List Char)) (randomKey : List Nat) : List Nat :=
  match cryptoKey with
  | none => randomKey
  | some s => if s = [] then randomKey else utf8Bytes s

/-- Value of a hex digit character, as accepted by `Buffer.from(s, hex)`. -/
def hexVal (c : Char) : Option Nat :=
  let n := c.toNat
  if 48 ≤ n ∧ n ≤ 57 then some (n - 48)
  else if 97 ≤ n ∧ n ≤ 102 then some (n - 87)
  else if 65 ≤ n ∧ n ≤ 70 then some (n - 55)
  else none

/-- Hex decoding as performed by `Buffer.from(s, hex)`: decodes pairs of
hex digits and stops at the first invalid pair (it never throws). -/
def hexDecode : List Char → List Nat
  | a :: b :: rest =>
    match hexVal a, hexVal b with
    | some x, some y => (16 * x + y) :: hexDecode rest
    | _, _ => []
  | _ => []

/-- Value of a base64 alphabet character. -/
def base64Val (c : Char) : Option Nat :=
  let n := c.toNat
  if 65 ≤ n ∧ n ≤ 90 then some (n - 65)
  else if 97 ≤ n ∧ n ≤ 122 then some (n - 71)
  else if 48 ≤ n ∧ n ≤ 57 then some (n + 4)
  else if n = 43 then some 62
  else if n = 47 then some 63
  else none

/-- Bytes of a list of base64 digit values: groups of four digits give
three bytes; a trailing group of three gives two bytes, of two gives one
byte, and a lone digit is dropped, as `Buffer.from(s, base64)` does. -/
def base64Bytes : List Nat → List Nat
  | a :: b :: c :: d :: rest =>
    (a * 4 + b / 16) :: ((b % 16) * 16 + c / 4) :: ((c % 4) * 64 + d) :: base64Bytes rest
  | [a, b, c] => [a * 4 + b / 16, (b % 16) * 16 + c / 4]
  | [a, b] => [a * 4 + b / 16]
  | _ => []

/-- Base64 decoding as performed by `Buffer.from(s, base64)`: characters
outside the alphabet (including padding) are skipped, and it never
throws. -/
def base64Decode (s : List Char) : List Nat := base64Bytes (s.filterMap base64Val)

/-- ENCRYPTION_KEY of the second revision: when CRYPTO_KEY is set and
non-empty, a string of length 64 is hex-decoded and any other length is
base64-decoded; a decoded length other than 32 throws inside the try
block, and the catch replaces the key with fresh random bytes (with a
warning).  When CRYPTO_KEY is absent, fresh random bytes are used (with a
warning that data is lost on restart). -/
def encryptionKeyV2 (cryptoKey : Option (List Char)) (randomKey : List Nat) : List Nat :=
  match cryptoKey with
  | none => randomKey
  | some s =>
    if s = [] then randomKey
    else
      let decoded := if s.length = 64 then hexDecode s else base64Decode s
      if decoded.length ≠ 32 then randomKey else decoded

/-- encryptV2, first revision: a falsy input (null or the empty string)
returns null; otherwise 16 random bytes are drawn into `iv`, but the
cipher is built by `crypto.createCipher(alg, ENCRYPTION_KEY)`, which
derives its key and a fixed IV from the password — the drawn `iv` is
stored in the record yet never used by the cipher. -/
def encryptV2Rev1 (key ivRand : List Nat) (text : Option (List Nat)) :
    Except CryptoErr (Option EncRecord) :=
  match text with
  | none => .ok none
  | some t =>
    if t = [] then .ok none
    else
      let dk := derivedKey key
      let dv := derivedIV key
      let ct := List.zipWith Nat.xor t (keystream dk dv t.length)
      .ok (some { encrypted := ct, iv := ivRand, authTag := tagOf dk dv ct })

/-- Body of the try block of decryptV2, first revision: the decipher is
built by `crypto.createDecipher(alg, ENCRYPTION_KEY)` — key and IV derived
from the password; the stored `iv` field of the record is never read.
`decipher.final` throws when the stored tag does not match. -/
def decryptBodyRev1 (key : List Nat) (r : EncRecord) : Except CryptoErr (List Nat) :=
  let dk := derivedKey key
  let dv := derivedIV key
  if tagOf dk dv r.encrypted = r.authTag then
    .ok (List.zipWith Nat.xor r.encrypted (keystream dk dv r.encrypted.length))
  else .error CryptoErr.authFailure

/-- decryptV2, first revision: a falsy record or a falsy `encrypted` field
returns null; the try block decrypts, and the catch logs the error and
returns null. -/
def decryptV2Rev1 (key : List Nat) (encryptedData : Option EncRecord) :
    Except CryptoErr (Option (List Nat)) :=
  match encryptedData with
  | none => .ok none
  | some r =>
    if r.encrypted = [] then .ok none
    else
      match decryptBodyRev1 key r with
      | .ok pt => .ok (some pt)
      | .error _ => .ok none

/-- encryptV2, second revision: a falsy input returns null; otherwise 16
random bytes are drawn into `iv` and `crypto.createCipherGCM` is called —
a function that does not exist in the Node crypto module — so the call
throws a TypeError, and encryptV2 has no try/catch, so the error
propagates to the caller before any record is produced. -/
def encryptV2Rev2 (key ivRand : List Nat) (text : Option (List Nat)) :
    Except CryptoErr (Option EncRecord) :=
  match text with
  | none => .ok none
  | some t =>
    if t = [] then .ok none
    else .error CryptoErr.typeError

/-- Body of the try block of decryptV2, second revision:
`Buffer.from(encryptedData.iv, hex)` succeeds, then
`crypto.createDecipherGCM` — nonexistent in the Node crypto module —
throws a TypeError before any deciphering or tag verification happens. -/
def decryptBodyRev2 (key : List Nat) (r : EncRecord) : Except CryptoErr (List Nat) :=
  .error CryptoErr.typeError

/-- decryptV2, second revision: a falsy record or a falsy `encrypted`
field returns null; the try block always throws (the TypeError of the
nonexistent `createDecipherGCM`), and the catch logs the error and
returns null, so no plaintext is ever returned. -/
def decryptV2Rev2 (key : List Nat) (encryptedData : Option EncRecord) :
    Except CryptoErr (Option (List Nat)) :=
  match encryptedData with
  | none => .ok none
  | some r =>
    if r.encrypted = [] then .ok none
    else
      match decryptBodyRev2 key r with
      | .ok pt => .ok (some pt)
      | .error _ => .ok none

/-- Corruption of one bit: flip bit `b` of byte `i` of a byte string. -/
def flipBit (l : List Nat) (i b : Nat) : List Nat :=
  l.set i (l.getD i 0 ^^^ 2 ^ b)

/-! The user schema (`packages/data-schemas/src/schema/user.ts`).  The
embedded `encrypted_password` object of `EmailConfigSchema` and the
`emailConfig` member of `userSchema` are modelled by structures; fields of
the user schema not touched by the claims are elided. -/

/-- The `encrypted_password` object of `EmailConfigSchema`: the three hex
string fields are modelled as the underlying byte strings and the
idealized tag. -/
structure EncryptedPasswordDoc where
  encrypted : List Nat
  iv : List Nat
  authTag : Nat
deriving DecidableEq, Repr

/-- One embedded email credential set (`EmailConfigSchema`). -/
structure EmailConfigDoc where
  host : String
  port : Nat
  username : String
  use_ssl : Bool
  encrypted_password : EncryptedPasswordDoc
  created_at : Nat
  updated_at : Nat
deriving DecidableEq, Repr

/-- A user document.  The `emailConfig` member has type `EmailConfigSchema`
with `required: false`: a single optional embedded sub-document, not a
collection, hence `Option`. -/
structure UserDoc where
  email : String
  emailConfig : Option EmailConfigDoc
deriving DecidableEq, Repr

/-- The update applied by `saveEmailCredentials`:
`findByIdAndUpdate(userId, { $set: { emailConfig } })` — the single
embedded sub-document is replaced. -/
def saveEmailConfig (u : UserDoc) (c : EmailConfigDoc) : UserDoc :=
  { u with emailConfig := some c }

/-- The update applied by `deleteEmailCredentials`:
`findByIdAndUpdate(userId, { $unset: { emailConfig: 1 } })`. -/
def unsetEmailConfig (u : UserDoc) : UserDoc :=
  { u with emailConfig := none }

/-- Number of stored email credential sets of a user document. -/
def emailConfigCount (u : UserDoc) : Nat :=
  match u.emailConfig with
  | none => 0
  | some _ => 1

/-! The shared-link model (`api/models/Share.js`).  A MongoDB collection is
modelled as a list of documents; the fields the claims touch are
`shareId`, `user` and `createdAt` (a numeric timestamp). -/

/-- One document of the SharedLink collection. -/
structure ShareDoc where
  shareId : String
  user : String
  createdAt : Nat
deriving DecidableEq, Repr

/-- Result object of a MongoDB delete operation. -/
structure DeleteResult where
  acknowledged : Bool
  deletedCount : Nat
deriving DecidableEq, Repr

/-- `Model.deleteOne(filter)`: removes the first document matching the
filter, if any, and reports how many documents were deleted. -/
def deleteOneDoc (p : ShareDoc → Bool) : List ShareDoc → List ShareDoc × Nat
  | [] => ([], 0)
  | d :: rest =>
    if p d then (rest, 1)
    else
      let r := deleteOneDoc p rest
      (d :: r.1, r.2)

/-- `deleteSharedLink({ shareId, user })`:
`SharedLink.deleteOne({ shareId, user })` — the filter requires both the
share id and the owning user to match. -/
def deleteSharedLink (shareId user : String) (store : List ShareDoc) :
    List ShareDoc × DeleteResult :=
  let r := deleteOneDoc (fun d => d.shareId == shareId && d.user == user) store
  (r.1, { acknowledged := true, deletedCount := r.2 })

/-- Descending order on `createdAt`, the sort `{ createdAt: -1 }` passed
to `SharedLink.find`. -/
def createdDesc (a b : ShareDoc) : Prop := b.createdAt ≤ a.createdAt

instance : DecidableRel createdDesc := fun a b => Nat.decLe b.createdAt a.createdAt

instance : IsTotal ShareDoc createdDesc :=
  ⟨fun a b => (Nat.le_total b.createdAt a.createdAt).imp id id⟩

instance : IsTrans ShareDoc createdDesc :=
  ⟨fun _ _ _ h1 h2 => Nat.le_trans h2 h1⟩

/-- The query built by `getSharedLinks`: documents of the given user,
restricted to `createdAt < pageParam` when a page cursor is given. -/
def sharesQuery (user : String) (pageParam : Option Nat) (d : ShareDoc) : Bool :=
  d.user == user &&
    (match pageParam with
     | some t => decide (d.createdAt < t)
     | none => true)

/-- `SharedLink.find(query, null, { sort: { createdAt: -1 }, limit: pageSize })`:
the matching documents in descending `createdAt` order, limited to the
first `pageSize` (the claims are stated for positive page sizes; the
MongoDB corner where a limit of 0 means no limit is not modelled). -/
def findShares (store : List ShareDoc) (user : String) (pageParam : Option Nat)
    (pageSize : Nat) : List ShareDoc :=
  (List.insertionSort createdDesc (store.filter (sharesQuery user pageParam))).take pageSize

/-- The page object returned by `getSharedLinks`. -/
structure SharedLinksPage where
  shares : List ShareDoc
  nextCursor : Option Nat
  hasNextPage : Bool
deriving DecidableEq, Repr

/-- `getSharedLinks({ user, pageParam, pageSize })`: fetches one page;
when the page is full (`shares.length === pageSize`) the cursor is the
`createdAt` of the last returned share and `hasNextPage` is the truthiness
of the cursor; reading the last element of an empty full page would throw,
and the catch rethrows. -/
def getSharedLinks (store : List ShareDoc) (user : String) (pageParam : Option Nat)
    (pageSize : Nat) : Except String SharedLinksPage :=
  let shares := findShares store user pageParam pageSize
  if shares.length = pageSize then
    match shares.getLast? with
    | some d => .ok { shares := shares, nextCursor := some d.createdAt, hasNextPage := true }
    | none => .error "TypeError"
  else .ok { shares := shares, nextCursor := none, hasNextPage := false }

/-- Ciphertext of the one-byte plaintext 97 under the first revision with
the empty password; used to exercise the theorems on an explicit input. -/
def sampleCt1 : List Nat :=
  List.zipWith Nat.xor [97] (keystream (derivedKey []) (derivedIV []) 1)

/-- Tag of `sampleCt1` under the first revision with the empty password. -/
def sampleTag1 : Nat := tagOf (derivedKey []) (derivedIV []) sampleCt1

/-- Arbitrary stored ciphertext bytes (built from the idealized primitive
with the empty key and IV); used as the `encrypted` field of a concrete
stored record when exercising the second-revision theorems. -/
def sampleCt2 : List Nat := List.zipWith Nat.xor [97] (keystream [] [] 1)

/-- Arbitrary stored tag matching `sampleCt2`; used as the `authTag` field
of a concrete stored record when exercising the second-revision
theorems. -/
def sampleTag2 : Nat := tagOf [] [] sampleCt2

/-! Helper lemmas about the idealized primitive. -/

lemma xor_two_pow_ne (a b : Nat) : a ^^^ 2 ^ b ≠ a := by
  intro h
  have h2 : a ^^^ (a ^^^ 2 ^ b) = a ^^^ a := congrArg (fun x => a ^^^ x) h
  rw [← Nat.xor_assoc, Nat.xor_self, Nat.zero_xor] at h2
  exact absurd h2 (Nat.pos_iff_ne_zero.mp (Nat.pos_pow_of_pos b (by omega)))

lemma zipWith_xor_xor : ∀ (pt ks : List Nat), pt.length ≤ ks.length →
    List.zipWith Nat.xor (List.zipWith Nat.xor pt ks) ks = pt := by
  intro pt
  induction pt with
  | nil => intro ks _; simp
  | cons p pt ih =>
    intro ks hks
    cases ks with
    | nil => simp at hks
    | cons k ks =>
      simp only [List.zipWith_cons_cons]
      have hhead : Nat.xor (Nat.xor p k) k = p := by
        show p ^^^ k ^^^ k = p
        rw [Nat.xor_assoc, Nat.xor_self, Nat.xor_zero]
      rw [hhead]
      exact congrArg (p :: ·) (ih ks (by simpa using hks))

lemma encodeBytes_cons (b : Nat) (l : List Nat) :
    encodeBytes (b :: l) = b + 256 * encodeBytes l := rfl

lemma encodeBytes_set_ne : ∀ (l : List Nat) (i v : Nat), i < l.length →
    v ≠ l.getD i 0 → encodeBytes (l.set i v) ≠ encodeBytes l := by
  intro l
  induction l with
  | nil => intro i v hi; simp at hi
  | cons c t ih =>
    intro i v hi hv
    cases i with
    | zero =>
      simp only [List.getD_cons_zero] at hv
      simp only [List.set]
      rw [encodeBytes_cons, encodeBytes_cons]
      intro h
      exact hv (by omega)
    | succ n =>
      simp only [List.getD_cons_succ] at hv
      simp only [List.set]
      rw [encodeBytes_cons, encodeBytes_cons]
      intro h
      have hn : n < t.length := by simpa using hi
      have := ih n v hn hv
      exact this (by omega)

lemma length_keystream (key iv : List Nat) (n : Nat) : (keystream key iv n).length = n := by
  simp [keystream]

lemma tagOf_flipBit_ne (key iv ct : List Nat) (i b : Nat) (hi : i < ct.length) :
    tagOf key iv (flipBit ct i b) ≠ tagOf key iv ct := by
  unfold tagOf flipBit
  intro h
  have h1 := (Nat.pair_eq_pair.mp h).2
  have h2 := (Nat.pair_eq_pair.mp h1).2
  exact encodeBytes_set_ne ct i _ hi (xor_two_pow_ne (ct.getD i 0) b) h2

lemma ct_length (key iv pt : List Nat) :
    (List.zipWith Nat.xor pt (keystream key iv pt.length)).length = pt.length := by
  simp [keystream]

lemma min_keystream_length (key iv pt : List Nat) :
    pt.length ⊓ (keystream key iv pt.length).length = pt.length := by
  simp [keystream]

lemma decrypt_encrypt_bytes (key iv pt : List Nat) :
    List.zipWith Nat.xor (List.zipWith Nat.xor pt (keystream key iv pt.length))
      (keystream key iv (List.zipWith Nat.xor pt (keystream key iv pt.length)).length) = pt := by
  rw [ct_length]
  exact zipWith_xor_xor pt _ (by simp [length_keystream])

lemma decryptV2Rev1_tag_mismatch (key : List Nat) (r : EncRecord)
    (hne : r.encrypted ≠ [])
    (ht : tagOf (derivedKey key) (derivedIV key) r.encrypted ≠ r.authTag) :
    decryptV2Rev1 key (some r) = .ok none := by
  simp [decryptV2Rev1, decryptBodyRev1, hne, ht]

lemma decryptV2Rev2_null (key : List Nat) (r : EncRecord) :
    decryptV2Rev2 key (some r) = .ok none := by
  by_cases he : r.encrypted = [] <;> simp [decryptV2Rev2, decryptBodyRev2, he]

lemma rev1_roundtrip (key ivRand pt : List Nat) (hpt : pt ≠ []) :
    ∃ r1, encryptV2Rev1 key ivRand (some pt) = .ok (some r1) ∧
      decryptV2Rev1 key (some r1) = .ok (some pt) := by
  have hctne : List.zipWith Nat.xor pt
      (keystream (derivedKey key) (derivedIV key) pt.length) ≠ [] := by
    intro h
    have := ct_length (derivedKey key) (derivedIV key) pt
    rw [h] at this
    simp only [List.length_nil] at this
    exact hpt (List.eq_nil_of_length_eq_zero this.symm)
  refine ⟨⟨List.zipWith Nat.xor pt (keystream (derivedKey key) (derivedIV key) pt.length),
    ivRand, tagOf (derivedKey key) (derivedIV key)
      (List.zipWith Nat.xor pt (keystream (derivedKey key) (derivedIV key) pt.length))⟩, ?_, ?_⟩
  · simp [encryptV2Rev1, hpt]
  · simp [decryptV2Rev1, decryptBodyRev1, hctne]
    rw [min_keystream_length]
    exact zipWith_xor_xor pt _ (le_of_eq (length_keystream _ _ _).symm)

lemma deleteOneDoc_none (p : ShareDoc → Bool) (store : List ShareDoc)
    (h : ∀ d ∈ store, p d = false) : deleteOneDoc p store = (store, 0) := by
  induction store with
  | nil => rfl
  | cons d rest ih =>
    simp [deleteOneDoc, h d (by simp), ih (fun x hx => h x (by simp [hx]))]

/-! Claim theorems. -/

/-- C1 (code bug): the first revision round-trips — decrypting the result
of encrypting the one-byte plaintext 97 under any key and IV draw returns
it — but the second revision as shipped cannot round-trip at all: its
encryptV2 calls `crypto.createCipherGCM`, a function that does not exist
in the Node crypto module, so every non-empty encryption throws a
TypeError instead of producing a record, and its decryptV2 returns null on
every input, so decryptV2(encryptV2(s)) = s fails for the second
revision. -/
theorem c1_roundtrip_broken_in_rev2 (key ivRand : List Nat) :
    (∃ r1, encryptV2Rev1 key ivRand (some [97]) = .ok (some r1) ∧
      decryptV2Rev1 key (some r1) = .ok (some [97])) ∧
    encryptV2Rev2 key ivRand (some [97]) = .error CryptoErr.typeError ∧
    (∀ d, decryptV2Rev2 key d = .ok none) := by
  refine ⟨rev1_roundtrip key ivRand [97] (by decide), rfl, ?_⟩
  intro d
  cases d with
  | none => rfl
  | some r => exact decryptV2Rev2_null key r

/-- C2 (code bug): the first-revision decryptV2 never reads the stored
`iv` field — it builds its decipher from the key alone, with the derived
fixed IV — so its result is invariant under arbitrary replacement of the
stored `iv`, contradicting the claim that the IV generated at encryption
time is used for decryption. -/
theorem c2_rev1_ignores_stored_iv (key e : List Nat) (t : Nat) (iv1 iv2 : List Nat) :
    decryptV2Rev1 key (some ⟨e, iv1, t⟩) = decryptV2Rev1 key (some ⟨e, iv2, t⟩) := rfl

/-- C3 (code bug): in the first revision the cipher is deterministic given
the key — the freshly drawn IV is stored but never used — so two
encryptions of the same plaintext under distinct random IVs return records
whose `iv` fields are the two draws but whose `encrypted` (and `authTag`)
fields are identical, contradicting the claim that the ciphertexts
differ. -/
theorem c3_rev1_same_ciphertext (key iv1 iv2 : List Nat) :
    ∃ r1 r2 : EncRecord,
      encryptV2Rev1 key iv1 (some [97]) = .ok (some r1) ∧
      encryptV2Rev1 key iv2 (some [97]) = .ok (some r2) ∧
      r1.iv = iv1 ∧ r2.iv = iv2 ∧
      r1.encrypted = r2.encrypted ∧ r1.authTag = r2.authTag := by
  refine ⟨_, _, rfl, rfl, rfl, rfl, rfl, rfl⟩

/-- C6: a null or empty input makes encryptV2 return null without
raising, in both revisions. -/
theorem c6_empty_input_returns_null (key ivRand : List Nat) (t : Option (List Nat))
    (h : t = none ∨ t = some []) :
    encryptV2Rev1 key ivRand t = .ok none ∧ encryptV2Rev2 key ivRand t = .ok none := by
  rcases h with h | h <;> subst h <;> exact ⟨rfl, rfl⟩

theorem c6_empty_input_returns_null_witness :
    ((some [] : Option (List Nat)) = none ∨ (some [] : Option (List Nat)) = some []) ∧
    (encryptV2Rev1 [] [] (some []) = .ok none ∧ encryptV2Rev2 [] [] (some []) = .ok none) :=
  ⟨Or.inr rfl, c6_empty_input_returns_null [] [] (some []) (Or.inr rfl)⟩

/-- C7 (counterexample): on a tampered record the decryption body does
fail — the first-revision try block raises an auth failure, and the
second-revision try block raises the TypeError of the nonexistent
`createDecipherGCM` — but decryptV2 catches the error and returns null
instead of letting it propagate to the caller, so the claim that
encryption/decryption failures reach the route error middleware as thrown
errors is false at this input. -/
theorem c7_counterexample :
    decryptBodyRev2 [] ⟨[0], [], 0⟩ = .error CryptoErr.typeError ∧
    decryptV2Rev2 [] (some ⟨[0], [], 0⟩) = .ok none ∧
    decryptBodyRev1 [] ⟨[0], [], 0⟩ = .error CryptoErr.authFailure ∧
    decryptV2Rev1 [] (some ⟨[0], [], 0⟩) = .ok none :=
  ⟨rfl, rfl, rfl, rfl⟩

/-- C7 (amended): decryptV2 never lets a failure escape as a thrown error;
every call returns normally, and the failure is surfaced as a null return
value, in both revisions. -/
theorem c7_failures_swallowed_to_null (key : List Nat) (d : Option EncRecord) :
    (∃ o, decryptV2Rev1 key d = .ok o) ∧ (∃ o, decryptV2Rev2 key d = .ok o) := by
  cases d with
  | none => exact ⟨⟨none, rfl⟩, ⟨none, rfl⟩⟩
  | some r =>
    constructor
    · by_cases he : r.encrypted = []
      · exact ⟨none, by simp [decryptV2Rev1, he]⟩
      · cases hbody : decryptBodyRev1 key r with
        | ok pt => exact ⟨some pt, by simp [decryptV2Rev1, he, hbody]⟩
        | error e => exact ⟨none, by simp [decryptV2Rev1, he, hbody]⟩
    · by_cases he : r.encrypted = []
      · exact ⟨none, by simp [decryptV2Rev2, he]⟩
      · cases hbody : decryptBodyRev2 key r with
        | ok pt => exact ⟨some pt, by simp [decryptV2Rev2, he, hbody]⟩
        | error e => exact ⟨none, by simp [decryptV2Rev2, he, hbody]⟩

/-- C4: flipping any single bit of the `encrypted` field or of the
`authTag` field of a stored record makes decryptV2 fail closed — it
returns null, and never a plaintext.  In the first revision this is
because the authentication tag no longer verifies on any record produced
by encryptV2; in the second revision, which produces no encrypt outputs
(encryptV2 throws), decryptV2 returns null on every stored record, so in
particular on every corrupted one. -/
theorem c4_tamper_fails_closed (key ivRand pt : List Nat) (i b : Nat) (r1 r2 : EncRecord)
    (hi : i < pt.length) (hb : b < 8)
    (h1 : encryptV2Rev1 key ivRand (some pt) = .ok (some r1)) :
    decryptV2Rev1 key (some { r1 with encrypted := flipBit r1.encrypted i b }) = .ok none ∧
    decryptV2Rev1 key (some { r1 with authTag := r1.authTag ^^^ 2 ^ b }) = .ok none ∧
    decryptV2Rev2 key (some { r2 with encrypted := flipBit r2.encrypted i b }) = .ok none ∧
    decryptV2Rev2 key (some { r2 with authTag := r2.authTag ^^^ 2 ^ b }) = .ok none := by
  have hpt : pt ≠ [] := by
    intro h
    rw [h] at hi
    simp at hi
  simp only [encryptV2Rev1, if_neg hpt, Except.ok.injEq, Option.some.injEq] at h1
  subst h1
  have hctlen1 : (List.zipWith Nat.xor pt
      (keystream (derivedKey key) (derivedIV key) pt.length)).length = pt.length :=
    ct_length _ _ _
  have hne1 : List.zipWith Nat.xor pt (keystream (derivedKey key) (derivedIV key) pt.length) ≠ [] := by
    intro h
    rw [h] at hctlen1
    simp only [List.length_nil] at hctlen1
    exact hpt (List.eq_nil_of_length_eq_zero hctlen1.symm)
  have hflipne1 : flipBit (List.zipWith Nat.xor pt
      (keystream (derivedKey key) (derivedIV key) pt.length)) i b ≠ [] := by
    intro h
    have := congrArg List.length h
    simp only [flipBit, List.length_set, List.length_nil] at this
    rw [hctlen1] at this
    exact hpt (List.eq_nil_of_length_eq_zero this)
  refine ⟨?_, ?_, decryptV2Rev2_null key _, decryptV2Rev2_null key _⟩
  · exact decryptV2Rev1_tag_mismatch key _ hflipne1
      (tagOf_flipBit_ne _ _ _ i b (by rw [hctlen1]; exact hi))
  · exact decryptV2Rev1_tag_mismatch key _ hne1
      (fun h => xor_two_pow_ne _ b h.symm)

theorem c4_tamper_fails_closed_witness :
    (0 : Nat) < ([97] : List Nat).length ∧ (0 : Nat) < 8 ∧
    (decryptV2Rev1 [] (some ⟨flipBit sampleCt1 0 0, [], sampleTag1⟩) = .ok none ∧
     decryptV2Rev1 [] (some ⟨sampleCt1, [], sampleTag1 ^^^ 2 ^ 0⟩) = .ok none ∧
     decryptV2Rev2 [] (some ⟨flipBit sampleCt2 0 0, [], sampleTag2⟩) = .ok none ∧
     decryptV2Rev2 [] (some ⟨sampleCt2, [], sampleTag2 ^^^ 2 ^ 0⟩) = .ok none) :=
  ⟨by decide, by decide,
    c4_tamper_fails_closed [] [] [97] 0 0 ⟨sampleCt1, [], sampleTag1⟩ ⟨sampleCt2, [], sampleTag2⟩
      (by decide) (by decide) rfl⟩

/-- C5 (counterexample): with CRYPTO_KEY set to the three-character string
abc, the first revision uses the raw string itself as the key — three
bytes, not 32, with no decoding and no length validation — so the claim
that the key used by the module is always exactly 32 bytes fails on the
first revision. -/
theorem c5_counterexample :
    (encryptionKeyV1 (some ['a', 'b', 'c']) (List.replicate 32 0)).length ≠ 32 := by
  decide

/-- C5 (amended): in the second revision the key is always exactly 32
bytes — a configured value is decoded (hex for length 64, base64
otherwise) and replaced by the 32 random bytes when its decoded length is
not 32, and the random bytes are used when the value is absent or empty —
while the first revision uses the raw CRYPTO_KEY string as the key, with
no decoding and no length validation. -/
theorem c5_key_provisioning (cryptoKey : Option (List Char)) (s : List Char)
    (randomKey : List Nat) (h32 : randomKey.length = 32) (hs : s ≠ []) :
    (encryptionKeyV2 cryptoKey randomKey).length = 32 ∧
    encryptionKeyV1 (some s) randomKey = utf8Bytes s := by
  constructor
  · unfold encryptionKeyV2
    cases cryptoKey with
    | none => exact h32
    | some t =>
      by_cases ht : t = []
      · simp [ht, h32]
      · simp only [if_neg ht]
        by_cases hd : (if t.length = 64 then hexDecode t else base64Decode t).length = 32
        · simp [hd]
        · simp [hd, h32]
  · unfold encryptionKeyV1
    simp [hs]

theorem c5_key_provisioning_witness :
    (List.replicate 32 (0 : Nat)).length = 32 ∧ (['a'] : List Char) ≠ [] ∧
    ((encryptionKeyV2 none (List.replicate 32 0)).length = 32 ∧
     encryptionKeyV1 (some ['a']) (List.replicate 32 0) = utf8Bytes ['a']) :=
  ⟨by decide, by decide,
    c5_key_provisioning none ['a'] (List.replicate 32 0) (by decide) (by decide)⟩

/-- C8: a user document stores at most one email credential set — the
`emailConfig` member is a single optional embedded sub-document, never a
collection — and a save replaces the existing sub-document rather than
accumulating a second one, while a delete removes it. -/
theorem c8_single_email_credential_set (u : UserDoc) (c c1 c2 : EmailConfigDoc) :
    emailConfigCount u ≤ 1 ∧
    (saveEmailConfig u c).emailConfig = some c ∧
    emailConfigCount (saveEmailConfig u c) = 1 ∧
    saveEmailConfig (saveEmailConfig u c1) c2 = saveEmailConfig u c2 ∧
    (unsetEmailConfig u).emailConfig = none := by
  refine ⟨?_, rfl, rfl, rfl, rfl⟩
  rcases u with ⟨e, ec⟩
  cases ec <;> simp [emailConfigCount]

/-- C9: deleteSharedLink removes only a document matching both the given
shareId and the given user: whenever every document bearing the shareId
belongs to a different user than the caller, the store is left unchanged
and deletedCount is 0. -/
theorem c9_delete_only_own_link (shareId user : String) (store : List ShareDoc)
    (h : ∀ d ∈ store, d.shareId = shareId → d.user ≠ user) :
    deleteSharedLink shareId user store =
      (store, { acknowledged := true, deletedCount := 0 }) := by
  have hp : ∀ d ∈ store, (d.shareId == shareId && d.user == user) = false := by
    intro d hd
    by_cases hsid : d.shareId = shareId
    · simp [hsid, h d hd hsid]
    · simp [hsid]
  unfold deleteSharedLink
  rw [deleteOneDoc_none _ _ hp]

theorem c9_delete_only_own_link_witness :
    (∀ d ∈ [ShareDoc.mk "s1" "alice" 5], d.shareId = "s1" → d.user ≠ "bob") ∧
    deleteSharedLink "s1" "bob" [ShareDoc.mk "s1" "alice" 5] =
      ([ShareDoc.mk "s1" "alice" 5], { acknowledged := true, deletedCount := 0 }) :=
  ⟨by decide, c9_delete_only_own_link "s1" "bob" [ShareDoc.mk "s1" "alice" 5] (by decide)⟩

/-- C10: for a positive page size, getSharedLinks returns at most pageSize
shares in descending createdAt order, hasNextPage is true exactly when the
number of returned shares equals pageSize, and nextCursor is the createdAt
of the last returned share in that case and null otherwise. -/
theorem c10_pagination (store : List ShareDoc) (user : String) (pageParam : Option Nat)
    (pageSize : Nat) (hps : 0 < pageSize) :
    ∃ page, getSharedLinks store user pageParam pageSize = .ok page ∧
      page.shares.length ≤ pageSize ∧
      List.Sorted createdDesc page.shares ∧
      (page.hasNextPage = true ↔ page.shares.length = pageSize) ∧
      (page.shares.length = pageSize →
        ∃ d, page.shares.getLast? = some d ∧ page.nextCursor = some d.createdAt) ∧
      (page.shares.length ≠ pageSize → page.nextCursor = none) := by
  have hlen : (findShares store user pageParam pageSize).length ≤ pageSize := by
    unfold findShares
    exact List.length_take_le _ _
  have hsorted : List.Sorted createdDesc (findShares store user pageParam pageSize) :=
    List.Pairwise.sublist (List.take_sublist _ _) (List.sorted_insertionSort createdDesc _)
  by_cases hfull : (findShares store user pageParam pageSize).length = pageSize
  · have hne : findShares store user pageParam pageSize ≠ [] := by
      intro h
      rw [h] at hfull
      simp only [List.length_nil] at hfull
      omega
    obtain ⟨d, hd⟩ := Option.isSome_iff_exists.mp (List.getLast?_isSome.mpr hne)
    refine ⟨⟨findShares store user pageParam pageSize, some d.createdAt, true⟩, ?_, hlen,
      hsorted, ?_, ?_, ?_⟩
    · simp only [getSharedLinks]
      rw [if_pos hfull, hd]
    · simp [hfull]
    · intro _
      exact ⟨d, hd, rfl⟩
    · intro hcon
      exact absurd hfull hcon
  · refine ⟨⟨findShares store user pageParam pageSize, none, false⟩, ?_, hlen, hsorted,
      ?_, ?_, ?_⟩
    · simp only [getSharedLinks]
      rw [if_neg hfull]
    · simp [hfull]
    · intro hcon
      exact absurd hcon hfull
    · intro _
      rfl

theorem c10_pagination_witness :
    (0 : Nat) < 1 ∧
    (∃ page, getSharedLinks [] "u" none 1 = .ok page ∧
      page.shares.length ≤ 1 ∧
      List.Sorted createdDesc page.shares ∧
      (page.hasNextPage = true ↔ page.shares.length = 1) ∧
      (page.shares.length = 1 →
        ∃ d, page.shares.getLast? = some d ∧ page.nextCursor = some d.createdAt) ∧
      (page.shares.length ≠ 1 → page.nextCursor = none)) :=
  ⟨by decide, c10_pagination [] "u" none 1 (by decide)⟩
